import Mathlib

/-!
# Shallow embedding of lakehouse-42/memory-mcp

This file embeds the memory backend abstraction of the repository:

* the `Memory` record model (`src/types.ts`);
* the local backend `LocalBackend` (`src/backends/local.ts`): an in-memory
  list of records mirrored to a JSON file, with the keyword-ranking search
  engine `searchMemories`;
* the remote backend `LH42Backend` (`src/backends/lh42.ts`): only its
  HTTP error-surfacing skeleton is modelled, since everything else is
  pass-through to a remote service.

Modelling conventions:

* JavaScript numbers used for `importance` and scores are modelled as `ℚ`
  (the program only multiplies, divides and compares them; `0.5` is `1/2`).
* ISO-8601 timestamp strings (`createdAt`, `updatedAt`) are modelled by
  their epoch value (`new Date(s).getTime()`), a `Nat`, since the code only
  ever compares them through `getTime()`.
* Strings are Lean `String`s; tokenisation works on `List Char`
  (`String.data`) so that the exact semantics of JavaScript
  `"".split(/\s+/)` (which yields `[""]`, never `[]`) is captured.
* The in-place mutation of `this.memories` is explicit state passing: an
  operation returns its result together with the new record sequence.
* `randomUUID()` and `new Date()` are environment inputs, so the model
  takes the generated id and the current time as parameters.
-/

/-- JavaScript `s.split(/\s+/)` on the character list of `s`: split on
maximal runs of whitespace.  Faithfully to JavaScript, the empty string
yields `[[]]` (one empty token), and leading/trailing whitespace yields an
empty first/last token. -/
def jsSplitWs : List Char → List (List Char)
  | [] => [[]]
  | c :: cs =>
    if c.isWhitespace then
      match cs with
      | [] => [[], []]
      | c2 :: _ => if c2.isWhitespace then jsSplitWs cs else [] :: jsSplitWs cs
    else
      match jsSplitWs cs with
      | [] => [[c]]
      | w :: ws => (c :: w) :: ws

/-- JavaScript `s.includes(sub)`: substring containment, i.e. `sub` occurs
as a prefix of some suffix of `s` (always true for the empty `sub`). -/
def jsIncludes : List Char → List Char → Bool
  | [], sub => sub.isPrefixOf []
  | a :: t, sub => sub.isPrefixOf (a :: t) || jsIncludes t sub

/-- `MemoryType` from `src/types.ts`. -/
inductive MemoryType
  | fact
  | preference
  | task
  | event
  | context
  | reflection
deriving DecidableEq

/-- `metadata` is an opaque key/value record, passed through unchanged. -/
abbrev Metadata := List (String × String)

/-- The `Memory` record from `src/types.ts`. -/
structure Memory where
  id : String
  content : String
  type : MemoryType
  importance : ℚ
  createdAt : Nat
  updatedAt : Nat
  metadata : Option Metadata
deriving DecidableEq

/-- `MemorySearchResult` from `src/types.ts`: a (memory, score) pair. -/
structure ScoredMemory where
  memory : Memory
  score : ℚ
deriving DecidableEq

/-- `RememberInput` from `src/types.ts`. -/
structure RememberInput where
  content : String
  type : Option MemoryType
  importance : Option ℚ
  metadata : Option Metadata

namespace LocalBackend

/-- `query.toLowerCase().split(/\s+/)` from `LocalBackend.searchMemories`. -/
def tokenize (s : String) : List (List Char) :=
  jsSplitWs (s.data.map Char.toLower)

/-- The inner loop test of `searchMemories`:
`cWord.includes(qWord) || qWord.includes(cWord)`. -/
def wordMatch (qWord cWord : List Char) : Bool :=
  jsIncludes cWord qWord || jsIncludes qWord cWord

/-- The match-counting loop of `searchMemories`: each query word counts at
most once (the inner loop breaks at its first matching content word). -/
def matchCount (queryWords contentWords : List (List Char)) : Nat :=
  queryWords.countP (fun qWord => contentWords.any (fun cWord => wordMatch qWord cWord))

/-- The score of one memory against the tokenised query, from
`LocalBackend.searchMemories` lines 193–211:
`baseScore = queryWords.length > 0 ? matchCount / queryWords.length : 0` and
`score = baseScore * (0.5 + memory.importance * 0.5)`. -/
def scoreOf (queryWords : List (List Char)) (m : Memory) : ℚ :=
  let contentWords := tokenize m.content
  let baseScore : ℚ :=
    if 0 < queryWords.length then
      (matchCount queryWords contentWords : ℚ) / (queryWords.length : ℚ)
    else 0
  baseScore * (1 / 2 + m.importance * (1 / 2))

/-- Options record of the private `searchMemories` engine. -/
structure SearchOptions where
  limit : Option Nat
  types : Option (List MemoryType)
  minScore : Option ℚ
  minImportance : Option ℚ

/-- The type filter: applied only when `options.types?.length` is truthy,
i.e. when a non-empty list of types was given. -/
def typesFilter (types : Option (List MemoryType)) (mems : List Memory) : List Memory :=
  match types with
  | some ts => if ts.isEmpty then mems else mems.filter (fun m => ts.contains m.type)
  | none => mems

/-- The importance floor: `m.importance >= options.minImportance` when given. -/
def importanceFilter (minImportance : Option ℚ) (mems : List Memory) : List Memory :=
  match minImportance with
  | some v => mems.filter (fun m => v ≤ m.importance)
  | none => mems

/-- The score floor: `r.score >= options.minScore` when given. -/
def scoreFloor (minScore : Option ℚ) (rs : List ScoredMemory) : List ScoredMemory :=
  match minScore with
  | some v => rs.filter (fun r => v ≤ r.score)
  | none => rs

/-- `results.sort((a, b) => b.score - a.score)`: a stable sort, descending
by score (ECMAScript `Array.prototype.sort` is stable, which insertion sort
with this relation reproduces element by element). -/
def sortByScoreDesc (rs : List ScoredMemory) : List ScoredMemory :=
  List.insertionSort (fun a b => b.score ≤ a.score) rs

/-- `LocalBackend.searchMemories` (lines 168–223): filter by types, then by
importance floor, score every survivor, drop zero scores, apply the score
floor, sort by score descending, truncate to `limit` (default 5). -/
def searchMemories (mems : List Memory) (query : String) (options : SearchOptions) :
    List ScoredMemory :=
  let queryWords := tokenize query
  let limit := options.limit.getD 5
  let filtered := importanceFilter options.minImportance (typesFilter options.types mems)
  let scored := filtered.map (fun m => ScoredMemory.mk m (scoreOf queryWords m))
  let results := scoreFloor options.minScore (scored.filter (fun r => decide (0 < r.score)))
  (sortByScoreDesc results).take limit

/-- `LocalBackend.recall`: `searchMemories` without a score floor. -/
def recallOp (mems : List Memory) (query : String) (limit : Option Nat)
    (types : Option (List MemoryType)) (minImportance : Option ℚ) : List ScoredMemory :=
  searchMemories mems query (SearchOptions.mk limit types none minImportance)

/-- `LocalBackend.search`: `searchMemories` with all options. -/
def search (mems : List Memory) (query : String) (limit : Option Nat)
    (types : Option (List MemoryType)) (minScore : Option ℚ)
    (minImportance : Option ℚ) : List ScoredMemory :=
  searchMemories mems query (SearchOptions.mk limit types minScore minImportance)

/-- `LocalBackend.remember` (lines 84–105): build the record with defaults
`type = "fact"`, `importance = 0.5`, both timestamps set to now, and push it
onto the sequence.  The generated `randomUUID()` and the clock are inputs. -/
def remember (mems : List Memory) (input : RememberInput) (newId : String) (now : Nat) :
    Memory × List Memory :=
  let m : Memory :=
    ⟨newId, input.content, input.type.getD MemoryType.fact,
      input.importance.getD (1 / 2), now, now, input.metadata⟩
  (m, mems ++ [m])

/-- `LocalBackend.forget` (lines 117–132): find the first index with the
given id; if absent return `false` and leave the sequence alone, else
splice out that one element and return `true`. -/
def forget (mems : List Memory) (memoryId : String) : Bool × List Memory :=
  match mems.findIdx? (fun m => m.id == memoryId) with
  | none => (false, mems)
  | some index => (true, mems.eraseIdx index)

/-- `LocalBackend.get`: first record with the given id, or null. -/
def get (mems : List Memory) (memoryId : String) : Option Memory :=
  mems.find? (fun m => m.id == memoryId)

/-- The comparator of `LocalBackend.list`:
`(a, b) => new Date(b.updatedAt).getTime() - new Date(a.updatedAt).getTime()`,
a stable in-place sort, descending by `updatedAt`. -/
def sortByUpdatedDesc (mems : List Memory) : List Memory :=
  List.insertionSort (fun a b => b.updatedAt ≤ a.updatedAt) mems

/-- `LocalBackend.list` (lines 147–154): sorts `this.memories` IN PLACE by
`updatedAt` descending, then returns `slice(offset, offset + limit)`.
The second component is the mutated stored sequence. -/
def list (mems : List Memory) (limit offset : Nat) : List Memory × List Memory :=
  let sorted := sortByUpdatedDesc mems
  ((sorted.drop offset).take limit, sorted)

/-- The JSON file payload written by `LocalBackend.save`:
`{ memories, version: 1 }`. -/
structure StorageData where
  memories : List Memory
  version : Nat
deriving DecidableEq

/-- `LocalBackend.save` (lines 225–232): serialise the whole sequence. -/
def save (mems : List Memory) : StorageData :=
  StorageData.mk mems 1

/-- The loading half of `LocalBackend.initialize` (lines 59–75): a missing
or unparsable file is treated as an empty store; otherwise
`this.memories = data.memories || []`. -/
def loadMemories : Option StorageData → List Memory
  | none => []
  | some data => data.memories

/-- A local backend together with its store file: the file holds `none`
when absent or corrupt. -/
structure BackendFS where
  memories : List Memory
  file : Option StorageData
deriving DecidableEq

/-- `remember` including its `await this.save()`: the new full sequence is
written to the file before returning. -/
def rememberFS (st : BackendFS) (input : RememberInput) (newId : String) (now : Nat) :
    Memory × BackendFS :=
  let r := remember st.memories input newId now
  (r.1, BackendFS.mk r.2 (some (save r.2)))

/-- `forget` including its `await this.save()`: on the not-found early
return nothing is written; on success the remaining sequence is written. -/
def forgetFS (st : BackendFS) (memoryId : String) : Bool × BackendFS :=
  let r := forget st.memories memoryId
  if r.1 then (true, BackendFS.mk r.2 (some (save r.2))) else (false, st)

/-- A fresh `initialize()` against a storage path whose file currently
holds `file`. -/
def initFromFile (file : Option StorageData) : BackendFS :=
  BackendFS.mk (loadMemories file) file

end LocalBackend

namespace LH42Backend

/-- The part of a `fetch` `Response` the error-handling skeleton reads:
the status code and the body text returned by `response.text()`. -/
structure HttpResponse where
  status : Nat
  bodyText : String
deriving DecidableEq

/-- `Response.ok`: status in the inclusive range 200–299. -/
def respOk (r : HttpResponse) : Bool :=
  decide (200 ≤ r.status) && decide (r.status ≤ 299)

/-- `LH42Backend.remember` error skeleton (lines 60–78): non-2xx throws
`Failed to store memory: <body>`; the JSON decoding of the success body is
abstracted as the `parsed` input. -/
def remember (resp : HttpResponse) (parsed : Memory) : Except String Memory :=
  if respOk resp then Except.ok parsed
  else Except.error ("Failed to store memory: " ++ resp.bodyText)

/-- `LH42Backend.recall` error skeleton (lines 80–105). -/
def recallOp (resp : HttpResponse) (parsed : List ScoredMemory) :
    Except String (List ScoredMemory) :=
  if respOk resp then Except.ok parsed
  else Except.error ("Failed to recall memories: " ++ resp.bodyText)

/-- `LH42Backend.search` error skeleton (lines 116–138). -/
def search (resp : HttpResponse) (parsed : List ScoredMemory) :
    Except String (List ScoredMemory) :=
  if respOk resp then Except.ok parsed
  else Except.error ("Search failed: " ++ resp.bodyText)

/-- `LH42Backend.forget` (lines 107–114): `return response.ok` — it never
throws on a non-2xx status, it just reports `false`. -/
def forget (resp : HttpResponse) : Except String Bool :=
  Except.ok (respOk resp)

/-- `LH42Backend.get` (lines 140–154): 404 yields `null`; any other non-2xx
throws `Failed to get memory: <body>`. -/
def get (resp : HttpResponse) (parsed : Memory) : Except String (Option Memory) :=
  if resp.status == 404 then Except.ok none
  else if respOk resp then Except.ok (some parsed)
  else Except.error ("Failed to get memory: " ++ resp.bodyText)

/-- `LH42Backend.list` error skeleton (lines 156–171). -/
def list (resp : HttpResponse) (parsed : List Memory) : Except String (List Memory) :=
  if respOk resp then Except.ok parsed
  else Except.error ("Failed to list memories: " ++ resp.bodyText)

end LH42Backend

namespace LocalBackend

/-- The type condition the spec promises of returned records: when a
non-empty list of types was given, the record's type is in it (the engine
skips the filter both for `undefined` and for an empty array, since
`options.types?.length` is falsy in both cases). -/
def typeOk (types : Option (List MemoryType)) (m : Memory) : Prop :=
  ∀ ts, types = some ts → ts ≠ [] → m.type ∈ ts

/-- The importance condition: `importance >= minImportance` when given. -/
def impOk (minImportance : Option ℚ) (m : Memory) : Prop :=
  ∀ v, minImportance = some v → v ≤ m.importance

/-- The score-floor condition: `score >= minScore` when given. -/
def scoreOk (minScore : Option ℚ) (r : ScoredMemory) : Prop :=
  ∀ v, minScore = some v → v ≤ r.score

/-- The record set that survives every filter of `searchMemories` before
sorting and truncation (stages in the code's order). -/
def qualifying (mems : List Memory) (query : String) (options : SearchOptions) :
    List ScoredMemory :=
  scoreFloor options.minScore
    (((importanceFilter options.minImportance (typesFilter options.types mems)).map
      (fun m => ScoredMemory.mk m (scoreOf (tokenize query) m))).filter
        (fun r => decide (0 < r.score)))

instance : IsTotal ScoredMemory (fun a b => b.score ≤ a.score) :=
  ⟨fun a b => le_total b.score a.score⟩

instance : IsTrans ScoredMemory (fun a b => b.score ≤ a.score) :=
  ⟨fun _ _ _ h1 h2 => le_trans h2 h1⟩

instance : IsTotal Memory (fun a b => b.updatedAt ≤ a.updatedAt) :=
  ⟨fun a b => Nat.le_total b.updatedAt a.updatedAt⟩

instance : IsTrans Memory (fun a b => b.updatedAt ≤ a.updatedAt) :=
  ⟨fun _ _ _ h1 h2 => Nat.le_trans h2 h1⟩

/-- The record of the spec's scoring example: content
"user prefers dark mode for the editor", importance 0.5. -/
def memDark : Memory :=
  ⟨"m-dark", "user prefers dark mode for the editor", MemoryType.preference, 1 / 2, 0, 0, none⟩

/-- The record of the spec's no-match example: content "light theme". -/
def memLight : Memory :=
  ⟨"m-light", "light theme", MemoryType.preference, 1 / 2, 0, 0, none⟩

/-- Fully matching record with importance 0.2 (the ordering example). -/
def memLow : Memory :=
  ⟨"m-low", "dark", MemoryType.fact, 1 / 5, 0, 0, none⟩

/-- Fully matching record with importance 0.9 (the ordering example). -/
def memHigh : Memory :=
  ⟨"m-high", "dark", MemoryType.fact, 9 / 10, 0, 0, none⟩

/-- Pagination example records, `updatedAt` 10/30/20/40 in insertion order. -/
def memT1 : Memory := ⟨"t1", "alpha", MemoryType.fact, 1, 0, 10, none⟩

def memT2 : Memory := ⟨"t2", "beta", MemoryType.fact, 1, 0, 30, none⟩

def memT3 : Memory := ⟨"t3", "gamma", MemoryType.fact, 1, 0, 20, none⟩

def memT4 : Memory := ⟨"t4", "delta", MemoryType.fact, 1, 0, 40, none⟩

/-- A sample `remember` input with no optional fields. -/
def inputPlain : RememberInput := ⟨"hello world", none, none, none⟩

/-- Search options exercising every filter at once. -/
def optsFiltered : SearchOptions :=
  ⟨some 5, some [MemoryType.preference], some (1 / 4), some (1 / 4)⟩

end LocalBackend

/-- JavaScript `split` never returns an empty array: even `""` splits to
`[""]`. -/
theorem jsSplitWs_length_pos (l : List Char) : 0 < (jsSplitWs l).length := by
  induction l with
  | nil => simp [jsSplitWs]
  | cons c cs ih =>
    by_cases hc : c.isWhitespace
    · cases cs with
      | nil => simp [jsSplitWs, hc]
      | cons c2 cs2 =>
        by_cases hc2 : c2.isWhitespace
        · simpa [jsSplitWs, hc, hc2] using ih
        · simp [jsSplitWs, hc, hc2]
    · cases h : jsSplitWs cs with
      | nil => simp [jsSplitWs, hc, h]
      | cons w ws => simp [jsSplitWs, hc, h]

/-- The empty substring is contained in every string. -/
theorem jsIncludes_nil (s : List Char) : jsIncludes s [] = true := by
  cases s with
  | nil => rfl
  | cons a t => simp [jsIncludes]

namespace LocalBackend

theorem tokenize_length_pos (s : String) : 0 < (tokenize s).length :=
  jsSplitWs_length_pos _

theorem tokenize_ne_nil (s : String) : tokenize s ≠ [] :=
  List.length_pos.mp (tokenize_length_pos s)

/-- The `queryWords.length > 0` guard in `searchMemories` is dead code:
a tokenised query is never empty, so the score is always the match ratio
times the importance weight. -/
theorem scoreOf_eq (q : String) (m : Memory) :
    scoreOf (tokenize q) m =
      (matchCount (tokenize q) (tokenize m.content) : ℚ) / ((tokenize q).length : ℚ) *
        (1 / 2 + m.importance * (1 / 2)) := by
  have h := tokenize_length_pos q
  simp only [scoreOf]
  rw [if_pos h]

/-- The empty query token matches every candidate token. -/
theorem wordMatch_nil (c : List Char) : wordMatch [] c = true := by
  simp [wordMatch, jsIncludes_nil]

/-- Against the empty query (one empty token), every record's match count
is 1. -/
theorem matchCount_empty_query (cws : List (List Char)) (h : cws ≠ []) :
    matchCount [[]] cws = 1 := by
  have hany : cws.any (fun cWord => wordMatch [] cWord) = true := by
    cases cws with
    | nil => exact absurd rfl h
    | cons c cs => simp [wordMatch_nil]
  simp [matchCount, List.countP_cons, hany]

/-- Tokenising the empty query yields exactly one (empty) token. -/
theorem tokenize_empty : tokenize "" = [[]] := by decide

/-- Every record scores `0.5 + importance * 0.5` against the empty query. -/
theorem scoreOf_empty_query (m : Memory) :
    scoreOf (tokenize "") m = 1 / 2 + m.importance * (1 / 2) := by
  rw [scoreOf_eq]
  rw [tokenize_empty]
  rw [matchCount_empty_query (tokenize m.content) (tokenize_ne_nil _)]
  norm_num

theorem mem_typesFilter {types : Option (List MemoryType)} {mems : List Memory} {m : Memory} :
    m ∈ typesFilter types mems ↔ m ∈ mems ∧ typeOk types m := by
  cases types with
  | none =>
    simp only [typesFilter, typeOk]
    exact ⟨fun h => ⟨h, by intro ts hts; cases hts⟩, fun h => h.1⟩
  | some ts =>
    by_cases hts : ts.isEmpty
    · have hnil : ts = [] := List.isEmpty_iff.mp hts
      subst hnil
      simp only [typesFilter, if_pos]
      constructor
      · intro h
        refine ⟨by simpa using h, ?_⟩
        intro ts' hts' hne
        cases hts'
        exact absurd rfl hne
      · intro h
        simpa using h.1
    · have hne : ts ≠ [] := fun h => hts (by simp [h])
      simp only [typesFilter, hts, if_neg, Bool.not_eq_true]
      rw [List.mem_filter]
      constructor
      · intro h
        refine ⟨h.1, ?_⟩
        intro ts' hts' _
        cases hts'
        simpa using h.2
      · intro h
        exact ⟨h.1, by simpa using h.2 ts rfl hne⟩

theorem mem_importanceFilter {minImportance : Option ℚ} {mems : List Memory} {m : Memory} :
    m ∈ importanceFilter minImportance mems ↔ m ∈ mems ∧ impOk minImportance m := by
  cases minImportance with
  | none =>
    simp only [importanceFilter, impOk]
    exact ⟨fun h => ⟨h, by intro v hv; cases hv⟩, fun h => h.1⟩
  | some v =>
    simp only [importanceFilter, impOk]
    rw [List.mem_filter]
    constructor
    · intro h
      refine ⟨h.1, ?_⟩
      intro v' hv'
      cases hv'
      simpa using h.2
    · intro h
      exact ⟨h.1, by simpa using h.2 v rfl⟩

theorem mem_scoreFloor {minScore : Option ℚ} {rs : List ScoredMemory} {r : ScoredMemory} :
    r ∈ scoreFloor minScore rs ↔ r ∈ rs ∧ scoreOk minScore r := by
  cases minScore with
  | none =>
    simp only [scoreFloor, scoreOk]
    exact ⟨fun h => ⟨h, by intro v hv; cases hv⟩, fun h => h.1⟩
  | some v =>
    simp only [scoreFloor, scoreOk]
    rw [List.mem_filter]
    constructor
    · intro h
      refine ⟨h.1, ?_⟩
      intro v' hv'
      cases hv'
      simpa using h.2
    · intro h
      exact ⟨h.1, by simpa using h.2 v rfl⟩

/-- `searchMemories` is: keep the qualifying records, sort them by score
descending, truncate to the limit. -/
theorem searchMemories_eq (mems : List Memory) (q : String) (options : SearchOptions) :
    searchMemories mems q options =
      (sortByScoreDesc (qualifying mems q options)).take (options.limit.getD 5) := rfl

theorem mem_sortByScoreDesc {rs : List ScoredMemory} {r : ScoredMemory} :
    r ∈ sortByScoreDesc rs ↔ r ∈ rs :=
  List.mem_insertionSort _

/-- Soundness of the pipeline: every result comes from a stored record,
carries that record's engine score, and passes all the filters. -/
theorem searchMemories_sound {mems : List Memory} {q : String} {options : SearchOptions}
    {r : ScoredMemory} (hr : r ∈ searchMemories mems q options) :
    r.memory ∈ mems ∧ r.score = scoreOf (tokenize q) r.memory ∧
      typeOk options.types r.memory ∧ impOk options.minImportance r.memory ∧
      0 < r.score ∧ scoreOk options.minScore r := by
  rw [searchMemories_eq] at hr
  have hq : r ∈ qualifying mems q options :=
    mem_sortByScoreDesc.mp (List.mem_of_mem_take hr)
  rw [qualifying, mem_scoreFloor] at hq
  obtain ⟨hfil, hfloor⟩ := hq
  rw [List.mem_filter] at hfil
  obtain ⟨hmap, hpos⟩ := hfil
  rw [List.mem_map] at hmap
  obtain ⟨m, hm, hEq⟩ := hmap
  have hpos' : 0 < r.score := of_decide_eq_true hpos
  subst hEq
  rw [mem_importanceFilter] at hm
  obtain ⟨hm, himp⟩ := hm
  rw [mem_typesFilter] at hm
  exact ⟨hm.1, rfl, hm.2, himp, hpos', hfloor⟩

/-- Completeness of the pipeline: a stored record passing all the filters,
with the limit large enough to not cut it, appears in the results. -/
theorem searchMemories_complete {mems : List Memory} {q : String} {options : SearchOptions}
    {m : Memory} (hm : m ∈ mems) (ht : typeOk options.types m)
    (hi : impOk options.minImportance m) (hs : 0 < scoreOf (tokenize q) m)
    (hf : scoreOk options.minScore (ScoredMemory.mk m (scoreOf (tokenize q) m)))
    (hlim : (qualifying mems q options).length ≤ options.limit.getD 5) :
    ScoredMemory.mk m (scoreOf (tokenize q) m) ∈ searchMemories mems q options := by
  have hq : ScoredMemory.mk m (scoreOf (tokenize q) m) ∈ qualifying mems q options := by
    rw [qualifying, mem_scoreFloor]
    refine ⟨?_, hf⟩
    rw [List.mem_filter]
    constructor
    · exact List.mem_map_of_mem _
        (mem_importanceFilter.mpr ⟨mem_typesFilter.mpr ⟨hm, ht⟩, hi⟩)
    · exact decide_eq_true hs
  rw [searchMemories_eq]
  rw [List.take_of_length_le]
  · exact mem_sortByScoreDesc.mpr hq
  · rw [sortByScoreDesc, List.length_insertionSort]
    exact hlim

/-- Both query words of "dark mode" match
"user prefers dark mode for the editor": score `1.0 * (0.5 + 0.5*0.5)`. -/
theorem scoreOf_memDark : scoreOf (tokenize "dark mode") memDark = 3 / 4 := by
  rw [scoreOf_eq]
  have h1 : matchCount (tokenize "dark mode") (tokenize memDark.content) = 2 := by decide
  have h2 : (tokenize "dark mode").length = 2 := by decide
  rw [h1, h2]
  show ((2 : ℕ) : ℚ) / ((2 : ℕ) : ℚ) * (1 / 2 + memDark.importance * (1 / 2)) = 3 / 4
  norm_num [memDark]

/-- No query word of "dark mode" matches "light theme": score 0. -/
theorem scoreOf_memLight : scoreOf (tokenize "dark mode") memLight = 0 := by
  rw [scoreOf_eq]
  have h1 : matchCount (tokenize "dark mode") (tokenize memLight.content) = 0 := by decide
  rw [h1]
  norm_num

theorem scoreOf_memLow : scoreOf (tokenize "dark") memLow = 3 / 5 := by
  rw [scoreOf_eq]
  have h1 : matchCount (tokenize "dark") (tokenize memLow.content) = 1 := by decide
  have h2 : (tokenize "dark").length = 1 := by decide
  rw [h1, h2]
  show ((1 : ℕ) : ℚ) / ((1 : ℕ) : ℚ) * (1 / 2 + memLow.importance * (1 / 2)) = 3 / 5
  norm_num [memLow]

theorem scoreOf_memHigh : scoreOf (tokenize "dark") memHigh = 19 / 20 := by
  rw [scoreOf_eq]
  have h1 : matchCount (tokenize "dark") (tokenize memHigh.content) = 1 := by decide
  have h2 : (tokenize "dark").length = 1 := by decide
  rw [h1, h2]
  show ((1 : ℕ) : ℚ) / ((1 : ℕ) : ℚ) * (1 / 2 + memHigh.importance * (1 / 2)) = 19 / 20
  norm_num [memHigh]

/-- Engine run of the spec's scoring example. -/
theorem searchMemories_darkEx :
    searchMemories [memDark, memLight] "dark mode" (SearchOptions.mk none none none none) =
      [ScoredMemory.mk memDark (3 / 4)] := by
  rw [searchMemories_eq]
  have hq : qualifying [memDark, memLight] "dark mode" (SearchOptions.mk none none none none) =
      [ScoredMemory.mk memDark (3 / 4)] := by
    simp only [qualifying, typesFilter, importanceFilter, scoreFloor, List.map_cons,
      List.map_nil, scoreOf_memDark, scoreOf_memLight]
    norm_num [List.filter_cons]
  rw [hq]
  simp [sortByScoreDesc, List.insertionSort, List.orderedInsert]

/-- Engine run of the empty-query example: the lone record IS returned,
with score `0.5 + 0.5 * 0.5`. -/
theorem recallOp_emptyEx :
    recallOp [memLight] "" none none none = [ScoredMemory.mk memLight (3 / 4)] := by
  show searchMemories [memLight] "" (SearchOptions.mk none none none none) =
    [ScoredMemory.mk memLight (3 / 4)]
  rw [searchMemories_eq]
  have hs : scoreOf (tokenize "") memLight = 3 / 4 := by
    rw [scoreOf_empty_query]
    norm_num [memLight]
  have hq : qualifying [memLight] "" (SearchOptions.mk none none none none) =
      [ScoredMemory.mk memLight (3 / 4)] := by
    simp only [qualifying, typesFilter, importanceFilter, scoreFloor, List.map_cons,
      List.map_nil, hs]
    norm_num [List.filter_cons]
  rw [hq]
  simp [sortByScoreDesc, List.insertionSort, List.orderedInsert]

/-- Engine run of the ordering example: the importance-0.9 record overtakes
the importance-0.2 record that was inserted first. -/
theorem recallOp_orderEx :
    recallOp [memLow, memHigh] "dark" none none none =
      [ScoredMemory.mk memHigh (19 / 20), ScoredMemory.mk memLow (3 / 5)] := by
  show searchMemories [memLow, memHigh] "dark" (SearchOptions.mk none none none none) =
    [ScoredMemory.mk memHigh (19 / 20), ScoredMemory.mk memLow (3 / 5)]
  rw [searchMemories_eq]
  have hq : qualifying [memLow, memHigh] "dark" (SearchOptions.mk none none none none) =
      [ScoredMemory.mk memLow (3 / 5), ScoredMemory.mk memHigh (19 / 20)] := by
    simp only [qualifying, typesFilter, importanceFilter, scoreFloor, List.map_cons,
      List.map_nil, scoreOf_memLow, scoreOf_memHigh]
    norm_num [List.filter_cons]
  rw [hq]
  rw [sortByScoreDesc]
  rw [show (List.insertionSort (fun a b : ScoredMemory => b.score ≤ a.score)
      [ScoredMemory.mk memLow (3 / 5), ScoredMemory.mk memHigh (19 / 20)]) =
      [ScoredMemory.mk memHigh (19 / 20), ScoredMemory.mk memLow (3 / 5)] from by
    simp only [List.insertionSort, List.orderedInsert]
    norm_num]
  rfl

end LocalBackend

theorem findIdx?_eq_none_of {α : Type} (p : α → Bool) (l : List α)
    (h : ∀ x ∈ l, p x = false) : ∀ i, List.findIdx? p l i = none := by
  induction l with
  | nil => intro i; simp
  | cons a t ih =>
    intro i
    rw [List.findIdx?_cons, h a (List.mem_cons_self a t)]
    simpa using ih (fun x hx => h x (List.mem_cons_of_mem a hx)) (i + 1)

theorem findIdx?_append_singleton {α : Type} (p : α → Bool) (l : List α) (y : α)
    (h : ∀ x ∈ l, p x = false) (hy : p y = true) :
    ∀ i, List.findIdx? p (l ++ [y]) i = some (i + l.length) := by
  induction l with
  | nil =>
    intro i
    simp [List.findIdx?_cons, hy]
  | cons a t ih =>
    intro i
    rw [List.cons_append, List.findIdx?_cons, h a (List.mem_cons_self a t)]
    simp only [Bool.false_eq_true, if_false]
    rw [ih (fun x hx => h x (List.mem_cons_of_mem a hx)) (i + 1)]
    congr 1
    simp [List.length_cons]
    omega

theorem eraseIdx_append_singleton {α : Type} (l : List α) (y : α) :
    (l ++ [y]).eraseIdx l.length = l := by
  induction l with
  | nil => simp
  | cons a t ih => simpa [List.eraseIdx] using ih

namespace LocalBackend

/-- `forget` on an id that no stored record carries: `findIndex` yields -1,
the early return fires, nothing changes. -/
theorem forget_not_found {mems : List Memory} {memoryId : String}
    (h : ∀ m ∈ mems, m.id ≠ memoryId) : forget mems memoryId = (false, mems) := by
  unfold forget
  rw [findIdx?_eq_none_of _ _ (fun m hm => beq_eq_false_iff_ne.mpr (h m hm)) 0]

/-- `remember` appends exactly one record (the returned one). -/
theorem remember_eq (mems : List Memory) (input : RememberInput) (newId : String) (now : Nat) :
    remember mems input newId now =
      (⟨newId, input.content, input.type.getD MemoryType.fact,
        input.importance.getD (1 / 2), now, now, input.metadata⟩,
       mems ++ [⟨newId, input.content, input.type.getD MemoryType.fact,
        input.importance.getD (1 / 2), now, now, input.metadata⟩]) := rfl

/-- `forget` right after `remember` of a fresh id removes exactly the new
record and reports success. -/
theorem forget_after_remember {mems : List Memory} (input : RememberInput)
    {newId : String} (now : Nat) (h : ∀ m ∈ mems, m.id ≠ newId) :
    forget (remember mems input newId now).2 newId = (true, mems) := by
  rw [remember_eq]
  unfold forget
  rw [findIdx?_append_singleton _ _ _
    (fun m hm => beq_eq_false_iff_ne.mpr (h m hm)) (beq_self_eq_true newId) 0]
  simp only [Nat.zero_add]
  rw [eraseIdx_append_singleton]

/-- `get` right after `remember` of a fresh id finds the new record. -/
theorem get_after_remember {mems : List Memory} (input : RememberInput)
    {newId : String} (now : Nat) (h : ∀ m ∈ mems, m.id ≠ newId) :
    get (remember mems input newId now).2 newId = some (remember mems input newId now).1 := by
  rw [remember_eq]
  unfold get
  rw [List.find?_append]
  rw [List.find?_eq_none.mpr
    (fun x hx => by simp [beq_eq_false_iff_ne.mpr (h x hx)])]
  simp [List.find?]

/-- `list` returns the slice of the store sorted by `updatedAt` descending. -/
theorem list_eq (mems : List Memory) (limit offset : Nat) :
    list mems limit offset =
      (((sortByUpdatedDesc mems).drop offset).take limit, sortByUpdatedDesc mems) := rfl

theorem sortByUpdatedDesc_sorted (mems : List Memory) :
    List.Sorted (fun a b : Memory => b.updatedAt ≤ a.updatedAt) (sortByUpdatedDesc mems) :=
  List.sorted_insertionSort _ mems

theorem sortByUpdatedDesc_perm (mems : List Memory) :
    List.Perm (sortByUpdatedDesc mems) mems :=
  List.perm_insertionSort _ mems

/-- Concrete pagination run: stored order 10/30/20/40, so the 2nd and 3rd
most-recently-updated records are `memT2` (30) and `memT3` (20). -/
theorem list_pagEx : (list [memT1, memT2, memT3, memT4] 2 1).1 = [memT2, memT3] := by decide

/-- A record in a store that fits in the limit shows up in `list`. -/
theorem mem_list_of_le {mems : List Memory} {m : Memory} {limit : Nat}
    (hm : m ∈ mems) (hlen : mems.length ≤ limit) : m ∈ (list mems limit 0).1 := by
  rw [list_eq]
  simp only [List.drop_zero]
  rw [List.take_of_length_le]
  · exact (List.mem_insertionSort _).mpr hm
  · rw [sortByUpdatedDesc, List.length_insertionSort]
    exact hlen

/-- The store file after `rememberFS` holds the full new record set. -/
theorem rememberFS_file (st : BackendFS) (input : RememberInput) (newId : String) (now : Nat) :
    ((rememberFS st input newId now).2).file =
      some (StorageData.mk ((rememberFS st input newId now).2).memories 1) := rfl

theorem rememberFS_memories (st : BackendFS) (input : RememberInput) (newId : String) (now : Nat) :
    ((rememberFS st input newId now).2).memories =
      st.memories ++ [(rememberFS st input newId now).1] := rfl

/-- Reloading the file written by `rememberFS` recovers exactly the stored
sequence. -/
theorem initFromFile_rememberFS (st : BackendFS) (input : RememberInput)
    (newId : String) (now : Nat) :
    (initFromFile ((rememberFS st input newId now).2).file).memories =
      ((rememberFS st input newId now).2).memories := rfl

/-- A successful `forgetFS` writes the remaining set to the file. -/
theorem forgetFS_file {st : BackendFS} {memoryId : String}
    (h : (forgetFS st memoryId).1 = true) :
    ((forgetFS st memoryId).2).file =
      some (StorageData.mk ((forgetFS st memoryId).2).memories 1) := by
  unfold forgetFS at h ⊢
  by_cases hf : (forget st.memories memoryId).1
  · simp [hf, save]
  · simp [hf] at h

theorem sortByScoreDesc_sorted (rs : List ScoredMemory) :
    List.Sorted (fun a b : ScoredMemory => b.score ≤ a.score) (sortByScoreDesc rs) :=
  List.sorted_insertionSort _ rs

/-- `recall` forwards to the engine with NO score floor. -/
theorem recallOp_eq (mems : List Memory) (q : String) (lim : Option Nat)
    (tys : Option (List MemoryType)) (minImp : Option ℚ) :
    recallOp mems q lim tys minImp =
      searchMemories mems q (SearchOptions.mk lim tys none minImp) := rfl

/-- With every filter active, only the matching, important-enough,
high-scoring record survives. -/
theorem qualifying_filteredEx :
    qualifying [memDark, memLight] "dark mode" optsFiltered =
      [ScoredMemory.mk memDark (3 / 4)] := by
  have htf : typesFilter optsFiltered.types [memDark, memLight] = [memDark, memLight] := by
    simp [optsFiltered, typesFilter, List.filter_cons, memDark, memLight]
  have hif : importanceFilter optsFiltered.minImportance [memDark, memLight] =
      [memDark, memLight] := by
    simp only [optsFiltered, importanceFilter]
    norm_num [List.filter_cons, memDark, memLight]
  rw [qualifying, htf, hif]
  simp only [List.map_cons, List.map_nil, scoreOf_memDark, scoreOf_memLight, scoreFloor,
    optsFiltered]
  norm_num [List.filter_cons]

end LocalBackend

open LocalBackend

/-- C1: every score the local search engine computes equals
`matchRatio * (0.5 + importance * 0.5)`, where `matchRatio` is the number
of matched query tokens over the total number of query tokens (the
zero-token guard is dead code, since tokenising never yields an empty
list); for query "dark mode" against
"user prefers dark mode for the editor" at importance 0.5 the score is
0.75, and against "light theme" it is 0. -/
theorem C1_score_formula :
    (∀ (mems : List Memory) (q : String) (options : SearchOptions) (r : ScoredMemory),
      r ∈ searchMemories mems q options → r.score = scoreOf (tokenize q) r.memory) ∧
    (∀ (q : String) (m : Memory),
      scoreOf (tokenize q) m =
        (matchCount (tokenize q) (tokenize m.content) : ℚ) / ((tokenize q).length : ℚ) *
          (1 / 2 + m.importance * (1 / 2))) ∧
    scoreOf (tokenize "dark mode") memDark = 3 / 4 ∧
    scoreOf (tokenize "dark mode") memLight = 0 :=
  ⟨fun _ _ _ _ hr => (searchMemories_sound hr).2.1,
   fun q m => scoreOf_eq q m, scoreOf_memDark, scoreOf_memLight⟩

/-- C1 witness: the single result of the "dark mode" example run carries
exactly the engine score of its record. -/
theorem C1_score_formula_witness :
    (ScoredMemory.mk memDark (3 / 4)).score =
      scoreOf (tokenize "dark mode") (ScoredMemory.mk memDark (3 / 4)).memory :=
  C1_score_formula.1 [memDark, memLight] "dark mode" (SearchOptions.mk none none none none) _
    (by rw [searchMemories_darkEx]; exact List.mem_singleton.mpr rfl)

/-- C2 counterexample: `recall("")` on a store holding one record (content
"light theme", importance 0.5) returns that record with score 0.75 — NOT
the empty result sequence the claim promises.  JavaScript
`"".split(/\s+/)` is `[""]`, one empty token, and the empty token is a
substring of every candidate token. -/
theorem C2_empty_query_counterexample :
    recallOp [memLight] "" none none none = [ScoredMemory.mk memLight (3 / 4)] ∧
    recallOp [memLight] "" none none none ≠ ([] : List ScoredMemory) := by
  refine ⟨recallOp_emptyEx, ?_⟩
  rw [recallOp_emptyEx]
  simp

/-- C2 (amended): `recall` with the empty query does NOT return the empty
sequence; the empty query tokenises to one empty token which matches every
record, so every candidate's matchRatio is 1, every candidate scores
`0.5 + importance * 0.5`, and recall returns all filter-passing records
with positive such score, sorted, up to the limit. -/
theorem C2_empty_query_amended (mems : List Memory) (lim : Option Nat)
    (tys : Option (List MemoryType)) (minImp : Option ℚ) :
    (∀ r ∈ recallOp mems "" lim tys minImp,
      r.score = 1 / 2 + r.memory.importance * (1 / 2)) ∧
    recallOp mems "" lim tys minImp =
      (sortByScoreDesc (((importanceFilter minImp (typesFilter tys mems)).map
        (fun m => ScoredMemory.mk m (1 / 2 + m.importance * (1 / 2)))).filter
          (fun r => decide (0 < r.score)))).take (lim.getD 5) := by
  constructor
  · intro r hr
    rw [recallOp_eq] at hr
    rw [(searchMemories_sound hr).2.1, scoreOf_empty_query]
  · rw [recallOp_eq, searchMemories_eq]
    show (sortByScoreDesc (qualifying mems "" (SearchOptions.mk lim tys none minImp))).take
        (lim.getD 5) = _
    have hq : qualifying mems "" (SearchOptions.mk lim tys none minImp) =
        ((importanceFilter minImp (typesFilter tys mems)).map
          (fun m => ScoredMemory.mk m (1 / 2 + m.importance * (1 / 2)))).filter
            (fun r => decide (0 < r.score)) := by
      rw [qualifying]
      show ((importanceFilter minImp (typesFilter tys mems)).map
        (fun m => ScoredMemory.mk m (scoreOf (tokenize "") m))).filter
          (fun r => decide (0 < r.score)) = _
      rw [List.map_congr_left (fun m _ => by rw [scoreOf_empty_query])]
    rw [hq]

/-- C2 witness: the record returned by the empty-query example run indeed
scores `0.5 + importance * 0.5`. -/
theorem C2_empty_query_amended_witness :
    (ScoredMemory.mk memLight (3 / 4)).score =
      1 / 2 + (ScoredMemory.mk memLight (3 / 4)).memory.importance * (1 / 2) :=
  (C2_empty_query_amended [memLight] none none none).1 _
    (by rw [recallOp_emptyEx]; exact List.mem_singleton.mpr rfl)

/-- C3: every result of the engine passes the type filter (when a
non-empty types list is given), the importance floor, has positive score
and passes the score floor; recall sets no score floor; and every stored
record passing all applicable filters appears in the results when the
qualifying set is not cut by the limit. -/
theorem C3_filters (mems : List Memory) (q : String) (options : SearchOptions) :
    (∀ r ∈ searchMemories mems q options,
      typeOk options.types r.memory ∧ impOk options.minImportance r.memory ∧
        0 < r.score ∧ scoreOk options.minScore r) ∧
    (∀ (lim : Option Nat) (tys : Option (List MemoryType)) (minImp : Option ℚ),
      recallOp mems q lim tys minImp =
        searchMemories mems q (SearchOptions.mk lim tys none minImp)) ∧
    (∀ m ∈ mems, typeOk options.types m → impOk options.minImportance m →
      0 < scoreOf (tokenize q) m →
      scoreOk options.minScore (ScoredMemory.mk m (scoreOf (tokenize q) m)) →
      (qualifying mems q options).length ≤ options.limit.getD 5 →
      ScoredMemory.mk m (scoreOf (tokenize q) m) ∈ searchMemories mems q options) := by
  refine ⟨?_, fun _ _ _ => rfl, ?_⟩
  · intro r hr
    obtain ⟨_, _, ht, hi, hs, hf⟩ := searchMemories_sound hr
    exact ⟨ht, hi, hs, hf⟩
  · intro m hm ht hi hs hf hlim
    exact searchMemories_complete hm ht hi hs hf hlim

/-- C3 witness: with all filters active (types `[preference]`,
`minImportance 0.25`, `minScore 0.25`), the matching record is returned. -/
theorem C3_filters_witness :
    ScoredMemory.mk memDark (scoreOf (tokenize "dark mode") memDark) ∈
      searchMemories [memDark, memLight] "dark mode" optsFiltered := by
  refine (C3_filters [memDark, memLight] "dark mode" optsFiltered).2.2 memDark (by simp)
    ?_ ?_ ?_ ?_ ?_
  · intro ts hts hne
    rw [show optsFiltered.types = some [MemoryType.preference] from rfl] at hts
    injection hts with h
    subst h
    show memDark.type ∈ [MemoryType.preference]
    simp [memDark]
  · intro v hv
    rw [show optsFiltered.minImportance = some (1 / 4) from rfl] at hv
    injection hv with h
    subst h
    show (1 : ℚ) / 4 ≤ memDark.importance
    norm_num [memDark]
  · rw [scoreOf_memDark]
    norm_num
  · intro v hv
    rw [show optsFiltered.minScore = some (1 / 4) from rfl] at hv
    injection hv with h
    subst h
    show (1 : ℚ) / 4 ≤ (ScoredMemory.mk memDark (scoreOf (tokenize "dark mode") memDark)).score
    rw [show (ScoredMemory.mk memDark (scoreOf (tokenize "dark mode") memDark)).score =
      scoreOf (tokenize "dark mode") memDark from rfl, scoreOf_memDark]
    norm_num
  · rw [qualifying_filteredEx]
    simp [optsFiltered]

/-- C4: results are sorted by score descending; at equal positive match
count the score is strictly monotone in importance; and in the concrete
ordering example the importance-0.9 record ranks before the
importance-0.2 record although it was inserted after it. -/
theorem C4_ordering (mems : List Memory) (q : String) (options : SearchOptions) :
    List.Sorted (fun a b : ScoredMemory => b.score ≤ a.score)
      (searchMemories mems q options) ∧
    (∀ m1 m2 : Memory,
      matchCount (tokenize q) (tokenize m1.content) =
        matchCount (tokenize q) (tokenize m2.content) →
      0 < matchCount (tokenize q) (tokenize m2.content) →
      m1.importance < m2.importance →
      scoreOf (tokenize q) m1 < scoreOf (tokenize q) m2) ∧
    recallOp [memLow, memHigh] "dark" none none none =
      [ScoredMemory.mk memHigh (19 / 20), ScoredMemory.mk memLow (3 / 5)] := by
  refine ⟨?_, ?_, recallOp_orderEx⟩
  · rw [searchMemories_eq]
    exact List.Pairwise.sublist (List.take_sublist _ _) (sortByScoreDesc_sorted _)
  · intro m1 m2 h1 h2 h3
    rw [scoreOf_eq, scoreOf_eq, h1]
    have hmc : (0 : ℚ) < (matchCount (tokenize q) (tokenize m2.content) : ℚ) := by
      exact_mod_cast h2
    have hlen : (0 : ℚ) < ((tokenize q).length : ℚ) := by
      exact_mod_cast tokenize_length_pos q
    exact mul_lt_mul_of_pos_left (by linarith) (div_pos hmc hlen)

/-- C4 witness: at equal match count 1 on query "dark", importance 0.2
scores strictly below importance 0.9. -/
theorem C4_ordering_witness :
    scoreOf (tokenize "dark") memLow < scoreOf (tokenize "dark") memHigh :=
  (C4_ordering [] "dark" (SearchOptions.mk none none none none)).2.1 memLow memHigh
    (by decide) (by decide) (by norm_num [memLow, memHigh])

/-- C5: `forget` of an absent id returns false and changes nothing; after
`remember` of a fresh id, `forget` of that id returns true and removes
exactly the new record, and a second `forget` returns false. -/
theorem C5_forget_idempotence (mems : List Memory) (memoryId : String)
    (input : RememberInput) (newId : String) (now : Nat) :
    ((∀ m ∈ mems, m.id ≠ memoryId) → forget mems memoryId = (false, mems)) ∧
    ((∀ m ∈ mems, m.id ≠ newId) →
      forget (remember mems input newId now).2 newId = (true, mems) ∧
      forget (forget (remember mems input newId now).2 newId).2 newId = (false, mems)) := by
  constructor
  · exact forget_not_found
  · intro h
    have h1 := forget_after_remember input now h
    refine ⟨h1, ?_⟩
    rw [h1]
    exact forget_not_found h

/-- C5 witness: on the empty store, forget "x" is a no-op; remember then
forget twice gives true then false. -/
theorem C5_forget_idempotence_witness :
    forget ([] : List Memory) "x" = (false, []) ∧
    forget (remember [] inputPlain "id-1" 7).2 "id-1" = (true, []) ∧
    forget (forget (remember [] inputPlain "id-1" 7).2 "id-1").2 "id-1" = (false, []) := by
  refine ⟨(C5_forget_idempotence [] "x" inputPlain "id-1" 7).1 (by simp), ?_, ?_⟩
  · exact ((C5_forget_idempotence [] "id-1" inputPlain "id-1" 7).2 (by simp)).1
  · exact ((C5_forget_idempotence [] "id-1" inputPlain "id-1" 7).2 (by simp)).2

/-- C6: `remember` returns a record carrying the supplied content, the
freshly generated id, the supplied type (default "fact") and importance
(default 0.5), with both timestamps set to now; the store gains exactly
that record and a subsequent `get` of its id returns it. -/
theorem C6_remember_roundtrip (mems : List Memory) (input : RememberInput)
    (newId : String) (now : Nat) (h : ∀ m ∈ mems, m.id ≠ newId) :
    (remember mems input newId now).1.id = newId ∧
    (remember mems input newId now).1.content = input.content ∧
    (remember mems input newId now).1.type = input.type.getD MemoryType.fact ∧
    (remember mems input newId now).1.importance = input.importance.getD (1 / 2) ∧
    (remember mems input newId now).1.createdAt = now ∧
    (remember mems input newId now).1.updatedAt = now ∧
    (remember mems input newId now).2 = mems ++ [(remember mems input newId now).1] ∧
    get (remember mems input newId now).2 newId = some (remember mems input newId now).1 :=
  ⟨rfl, rfl, rfl, rfl, rfl, rfl, rfl, get_after_remember input now h⟩

/-- C6 witness: the round trip on the empty store with the plain input. -/
theorem C6_remember_roundtrip_witness :
    get (remember [] inputPlain "id-1" 7).2 "id-1" =
      some (remember [] inputPlain "id-1" 7).1 :=
  (C6_remember_roundtrip [] inputPlain "id-1" 7 (by simp)).2.2.2.2.2.2.2

/-- C7: `rememberFS` writes the full new record set (as
`{memories, version: 1}`) to the file before returning, a successful
`forgetFS` does the same with the remaining set, a fresh `initialize`
against that file recovers exactly the saved sequence, and `list` on the
re-initialised backend shows the remembered record. -/
theorem C7_persistence (st : BackendFS) (input : RememberInput) (newId : String)
    (now : Nat) (memoryId : String) :
    ((rememberFS st input newId now).2).file =
      some (StorageData.mk ((rememberFS st input newId now).2).memories 1) ∧
    ((forgetFS st memoryId).1 = true →
      ((forgetFS st memoryId).2).file =
        some (StorageData.mk ((forgetFS st memoryId).2).memories 1)) ∧
    (initFromFile ((rememberFS st input newId now).2).file).memories =
      ((rememberFS st input newId now).2).memories ∧
    (∀ limit : Nat, ((rememberFS st input newId now).2).memories.length ≤ limit →
      (rememberFS st input newId now).1 ∈
        (list (initFromFile ((rememberFS st input newId now).2).file).memories limit 0).1) := by
  refine ⟨rfl, forgetFS_file, rfl, ?_⟩
  intro limit hlim
  rw [initFromFile_rememberFS]
  refine mem_list_of_le ?_ hlim
  rw [rememberFS_memories]
  exact List.mem_append.mpr (Or.inr (List.mem_singleton.mpr rfl))

/-- C7 witness: remember into an empty backend, re-initialise from the
written file, and the record shows in `list 1 0`. -/
theorem C7_persistence_witness :
    (rememberFS (BackendFS.mk [] none) inputPlain "id-1" 7).1 ∈
      (list (initFromFile
        ((rememberFS (BackendFS.mk [] none) inputPlain "id-1" 7).2).file).memories 1 0).1 :=
  (C7_persistence (BackendFS.mk [] none) inputPlain "id-1" 7 "z").2.2.2 1 (by decide)

/-- C8: `list` returns the store sorted by `updatedAt` descending, skips
`offset` records, returns at most `limit`; with updatedAt 10/30/20/40 in
insertion order, `list 2 1` returns the records updated at 30 and 20. -/
theorem C8_list_pagination (mems : List Memory) (limit offset : Nat) :
    (list mems limit offset).1 = ((sortByUpdatedDesc mems).drop offset).take limit ∧
    List.Sorted (fun a b : Memory => b.updatedAt ≤ a.updatedAt) (list mems limit offset).1 ∧
    (list mems limit offset).1.length ≤ limit ∧
    (list [memT1, memT2, memT3, memT4] 2 1).1 = [memT2, memT3] := by
  refine ⟨rfl, ?_, ?_, list_pagEx⟩
  · exact List.Pairwise.sublist ((List.take_sublist _ _).trans (List.drop_sublist _ _))
      (sortByUpdatedDesc_sorted mems)
  · exact List.length_take_le _ _

/-- C9 counterexample: a 500 response with body "boom" on the remote
`forget` does NOT surface as a failure carrying the body — the method
returns `response.ok`, i.e. plain `false`. -/
theorem C9_forget_counterexample :
    LH42Backend.forget (LH42Backend.HttpResponse.mk 500 "boom") = Except.ok false := rfl

/-- C9 (amended): a non-2xx response surfaces as a failure carrying the
response body text for `remember`, `recall`, `search` and `list`, and for
`get` when the status is not 404; a 404 on `get` yields an absent result;
but `forget` instead returns the boolean `response.ok` and never surfaces
a failure. -/
theorem C9_remote_errors (resp : LH42Backend.HttpResponse) (pm : Memory)
    (prs : List ScoredMemory) (pms : List Memory) :
    (LH42Backend.respOk resp = false →
      LH42Backend.remember resp pm =
        Except.error ("Failed to store memory: " ++ resp.bodyText) ∧
      LH42Backend.recallOp resp prs =
        Except.error ("Failed to recall memories: " ++ resp.bodyText) ∧
      LH42Backend.search resp prs =
        Except.error ("Search failed: " ++ resp.bodyText) ∧
      LH42Backend.list resp pms =
        Except.error ("Failed to list memories: " ++ resp.bodyText)) ∧
    (resp.status = 404 → LH42Backend.get resp pm = Except.ok none) ∧
    (resp.status ≠ 404 → LH42Backend.respOk resp = false →
      LH42Backend.get resp pm =
        Except.error ("Failed to get memory: " ++ resp.bodyText)) ∧
    LH42Backend.forget resp = Except.ok (LH42Backend.respOk resp) := by
  refine ⟨?_, ?_, ?_, rfl⟩
  · intro h
    exact ⟨by simp [LH42Backend.remember, h], by simp [LH42Backend.recallOp, h],
      by simp [LH42Backend.search, h], by simp [LH42Backend.list, h]⟩
  · intro h
    simp [LH42Backend.get, h]
  · intro h404 h
    simp [LH42Backend.get, beq_eq_false_iff_ne.mpr h404, h]

/-- C9 witness: a 500 "boom" on remote remember errors with the body in
the message, and a 404 on remote get yields null. -/
theorem C9_remote_errors_witness :
    LH42Backend.remember (LH42Backend.HttpResponse.mk 500 "boom") memDark =
      Except.error ("Failed to store memory: " ++ "boom") ∧
    LH42Backend.get (LH42Backend.HttpResponse.mk 404 "nf") memDark = Except.ok none :=
  ⟨((C9_remote_errors (LH42Backend.HttpResponse.mk 500 "boom") memDark [] []).1 rfl).1,
   (C9_remote_errors (LH42Backend.HttpResponse.mk 404 "nf") memDark [] []).2.1 rfl⟩

/-- C10: `list` sorts the backend's stored sequence in place — the state
after `list` is exactly the `updatedAt`-descending sort of the previous
state: same multiset, sorted order. -/
theorem C10_list_in_place (mems : List Memory) (limit offset : Nat) :
    (list mems limit offset).2 = sortByUpdatedDesc mems ∧
    List.Perm (list mems limit offset).2 mems ∧
    List.Sorted (fun a b : Memory => b.updatedAt ≤ a.updatedAt) (list mems limit offset).2 :=
  ⟨rfl, sortByUpdatedDesc_perm mems, sortByUpdatedDesc_sorted mems⟩
